import Mathlib

/-!
Verification of the scoring and aggregation engine of `ahmia/search/views.py`
(the result pipeline of the ahmia-site search views).

Modelling conventions:
* Python floats are modelled by `ℚ` (exact arithmetic, no rounding).
* Python `datetime` values are modelled by `ℤ` — seconds since the Unix epoch.
  Comparison of datetimes and subtraction of a `timedelta(days=d)` correspond
  exactly to integer comparison and subtraction of `d * 86400` seconds.
* Fallible Python code is modelled with `Except PyError`; an uncaught Python
  exception is an `Except.error`.
* Duck-typed values (the `anchors` field) are modelled by the small sum type
  `PyVal`; Python subscripting `v[0]` is `pySubscript0`.
-/

namespace Ahmia

/-- The Python exception kinds that the modelled code can raise or catch. -/
inductive PyError where
  | keyError
  | typeError
  | indexError
  | valueError
deriving DecidableEq

/-- A duck-typed Python value, as the `anchors` field of an Elasticsearch
`_source` document may hold `None`, a string, or a list of strings. -/
inductive PyVal where
  | pyNone
  | str (s : String)
  | list (xs : List String)
deriving DecidableEq

/-- Python subscripting `v[0]`: `None[0]` raises `TypeError`, subscripting an
empty string or empty list raises `IndexError`, a nonempty string yields its
first character and a nonempty list its first element. -/
def pySubscript0 : PyVal → Except PyError PyVal
  | PyVal.pyNone => Except.error PyError.typeError
  | PyVal.str s =>
    match s.toList with
    | [] => Except.error PyError.indexError
    | c :: _ => Except.ok (PyVal.str (String.mk [c]))
  | PyVal.list [] => Except.error PyError.indexError
  | PyVal.list (x :: _) => Except.ok (PyVal.str x)

/-- One formatted search hit, as produced by `TorResultsView.format_hits`.
`score` is the hit's (later re-ranked) score, `updated_on` the parsed
timestamp in epoch seconds, `anchors` the possibly absent anchors field. -/
structure Hit where
  domain : String
  score : ℚ
  updated_on : ℤ
  anchors : Option PyVal
deriving DecidableEq

/-- The `_source` part of one raw Elasticsearch document, restricted to the
fields the pipeline interprets. -/
structure EsSource where
  domain : String
  updated_on : String
  anchors : Option PyVal
deriving DecidableEq

/-- One raw document inside a `domains` aggregation bucket: its optional
`authority` field and its Elasticsearch match score `_score`. -/
structure EsDoc where
  authority : Option ℚ
  matchScore : ℚ
  source : EsSource
deriving DecidableEq

/-- One `domains` bucket of the raw response: the candidate documents of one
site. Elasticsearch's `top_hits` sub-aggregation (declared in
`TorResultsView.get_es_context`) selects one representative from these. -/
structure EsBucket where
  docs : List EsDoc
deriving DecidableEq

/-- The shape of the Elasticsearch response that `format_hits` consumes:
the `domains` buckets, the `sum_other_doc_count` of sites omitted from the
aggregation, and the already-extracted optional phrase suggestion (the code
extracts it inside a `try/except` that yields `None` on any malformed
suggestion structure). -/
structure EsResponse where
  buckets : List EsBucket
  sum_other_doc_count : ℕ
  suggest : Option String
deriving DecidableEq

/-- The `SimpleNamespace(total=…, hits=…, suggest=…)` built by
`format_hits`, mutated later by `sort_hits` and `filter_hits`. -/
structure ResultSet where
  total : ℕ
  hits : List Hit
  suggest : Option String
deriving DecidableEq

/-- The `missing: 0.0000000001` sentinel of the `authority` sort in the
`top_hits` aggregation declared by `TorResultsView.get_es_context`. -/
def sentinel : ℚ := 1 / 10000000000

/-- The primary sort key Elasticsearch uses for a document: its `authority`
value, with the `missing` sentinel substituted when the field is absent. -/
def authKey (d : EsDoc) : ℚ := d.authority.getD sentinel

/-- Whether document `c` sorts strictly before document `best` under the
`top_hits` sort declared in `get_es_context`: `authority` descending
(missing → `sentinel`), then `_score` descending. -/
def betterDoc (c best : EsDoc) : Bool :=
  decide (authKey best < authKey c ∨
    (authKey c = authKey best ∧ best.matchScore < c.matchScore))

/-- The representative document of a bucket: the first maximum of the bucket's
documents under the `top_hits` sort (`size: 1`, `authority` desc with
`missing: 0.0000000001`, then `_score` desc), as declared in
`TorResultsView.get_es_context`. Elasticsearch executes this sort; the
selection itself is therefore modelled from the query the view declares. -/
def selectTop : List EsDoc → Option EsDoc
  | [] => none
  | d :: ds => some (ds.foldl (fun best c => if betterDoc c best then c else best) d)

/-- The ordering the declared `top_hits` sort maximises: `a` ranks no higher
than `b` when `b` has a larger sentinel-filled authority, or an equal one and
at least as large a match score. -/
def lexLe (a b : EsDoc) : Prop :=
  authKey a < authKey b ∨ (authKey a = authKey b ∧ a.matchScore ≤ b.matchScore)

/-- Value of an ASCII digit character. -/
def digitVal (c : Char) : ℕ := c.toNat - 48

/-- February length switch of the proleptic Gregorian calendar used by
Python's `datetime`. -/
def daysInMonth (y mo : ℕ) : ℕ :=
  if mo = 2 then (if y % 4 = 0 ∧ (y % 100 ≠ 0 ∨ y % 400 = 0) then 29 else 28)
  else if mo = 4 ∨ mo = 6 ∨ mo = 9 ∨ mo = 11 then 30
  else 31

/-- Days from the Unix epoch to the civil date `y-mo-da` (proleptic Gregorian,
`y ≥ 1`), the standard era-based conversion underlying `datetime`. -/
def daysFromCivil (y mo da : ℕ) : ℤ :=
  let y' := if mo ≤ 2 then y - 1 else y
  let era := y' / 400
  let yoe := y' % 400
  let mp := (mo + 9) % 12
  let doy := (153 * mp + 2) / 5 + da - 1
  let doe := yoe * 365 + yoe / 4 - yoe / 100 + doy
  (era * 146097 + doe : ℤ) - 719468

/-- Models `datetime.strptime(s, '%Y-%m-%dT%H:%M:%S')` on zero-padded ISO
timestamps, the format the crawler writes into `updated_on`: an exactly
matching string parses to epoch seconds, anything else raises `ValueError`
(field ranges are validated as the `datetime` constructor does). -/
def parseTimestamp (s : String) : Except PyError ℤ :=
  match s.toList with
  | [y1, y2, y3, y4, c1, m1, m2, c2, d1, d2, c3, h1, h2, c4, n1, n2, c5, s1, s2] =>
    if c1 = '-' ∧ c2 = '-' ∧ c3 = 'T' ∧ c4 = ':' ∧ c5 = ':'
        ∧ y1.isDigit ∧ y2.isDigit ∧ y3.isDigit ∧ y4.isDigit
        ∧ m1.isDigit ∧ m2.isDigit ∧ d1.isDigit ∧ d2.isDigit
        ∧ h1.isDigit ∧ h2.isDigit ∧ n1.isDigit ∧ n2.isDigit
        ∧ s1.isDigit ∧ s2.isDigit then
      let y := digitVal y1 * 1000 + digitVal y2 * 100 + digitVal y3 * 10 + digitVal y4
      let mo := digitVal m1 * 10 + digitVal m2
      let da := digitVal d1 * 10 + digitVal d2
      let hh := digitVal h1 * 10 + digitVal h2
      let mi := digitVal n1 * 10 + digitVal n2
      let se := digitVal s1 * 10 + digitVal s2
      if 1 ≤ y ∧ 1 ≤ mo ∧ mo ≤ 12 ∧ 1 ≤ da ∧ da ≤ daysInMonth y mo
          ∧ hh ≤ 23 ∧ mi ≤ 59 ∧ se ≤ 61 then
        Except.ok (86400 * daysFromCivil y mo da + (3600 * hh + 60 * mi + se : ℕ))
      else Except.error PyError.valueError
    else Except.error PyError.valueError
  | _ => Except.error PyError.valueError

/-- The `try: new_hit['anchors'] = new_hit['anchors'][0] except (KeyError,
TypeError): pass` step of `format_hits`: an absent field (KeyError) stays
absent, a `TypeError` from subscripting leaves the original value in place,
and any other exception (notably `IndexError` from an empty list) propagates. -/
def collapseAnchors (a : Option PyVal) : Except PyError (Option PyVal) :=
  match a with
  | none => Except.ok none
  | some v =>
    match pySubscript0 v with
    | Except.ok w => Except.ok (some w)
    | Except.error PyError.keyError => Except.ok (some v)
    | Except.error PyError.typeError => Except.ok (some v)
    | Except.error e => Except.error e

/-- The per-bucket body of the `for h in hits['buckets']` loop of
`TorResultsView.format_hits`: take the bucket's `top_hits` representative
`tmp`, copy its `_source`, set `score = tmp['sort'][1] * tmp['sort'][0]`
(match score times sentinel-filled authority), parse `updated_on` with
`strptime` (uncaught `ValueError` on failure), and collapse `anchors`. -/
def formatBucket (b : EsBucket) : Except PyError Hit :=
  match selectTop b.docs with
  | none => Except.error PyError.indexError
  | some tmp =>
    match parseTimestamp tmp.source.updated_on with
    | Except.error e => Except.error e
    | Except.ok ts =>
      match collapseAnchors tmp.source.anchors with
      | Except.error e => Except.error e
      | Except.ok anch =>
        Except.ok { domain := tmp.source.domain
                    score := tmp.matchScore * authKey tmp
                    updated_on := ts
                    anchors := anch }

/-- The bucket loop of `format_hits`: buckets are processed in order and an
uncaught exception in any iteration aborts the whole loop. -/
def formatHitsList : List EsBucket → Except PyError (List Hit)
  | [] => Except.ok []
  | b :: bs =>
    match formatBucket b with
    | Except.error e => Except.error e
    | Except.ok h =>
      match formatHitsList bs with
      | Except.error e => Except.error e
      | Except.ok hs => Except.ok (h :: hs)

/-- Models `TorResultsView.format_hits`: `total = len(buckets) +
sum_other_doc_count`, one formatted hit per bucket, suggestion passed
through. An exception from any bucket prevents the `SimpleNamespace` from
being built at all. -/
def format_hits (resp : EsResponse) : Except PyError ResultSet :=
  match formatHitsList resp.buckets with
  | Except.error e => Except.error e
  | Except.ok hits =>
    Except.ok { total := resp.buckets.length + resp.sum_other_doc_count
                hits := hits
                suggest := resp.suggest }

/-- Modelled from the spec: `utils.normalize_on_max` (in `ahmia/utils.py`,
which is not part of the provided sources) scales an ordered sequence of
floats by its maximum; if the maximum is zero or the input is empty every
output is zero, and order is preserved index-for-index. -/
def normalize_on_max (xs : List ℚ) : List ℚ :=
  match xs.max? with
  | none => []
  | some m => if m = 0 then xs.map (fun _ => 0) else xs.map (fun x => x / m)

/-- The `gp`/`lp` weight parameters of the request, already converted by
`float(urlparams.get('gp', 0))` / `float(urlparams.get('lp', 0))` as
`heuristic_score` does; an absent parameter is `0`. -/
structure UrlParams where
  gp : ℚ := 0
  lp : ℚ := 0
deriving DecidableEq

/-- Models `heuristic_score`: the weighted sum
`gp_score * gp_coeff + lp_score * lp_coeff + ir_score * ir_coeff` with
`ir_coeff = 1 - gp_coeff - lp_coeff`, computed for any coefficients without
clamping or error. -/
def heuristic_score (ir_score gp_score lp_score : ℚ) (urlparams : UrlParams) : ℚ :=
  let lp_coeff := urlparams.lp
  let gp_coeff := urlparams.gp
  let ir_coeff := 1 - gp_coeff - lp_coeff
  gp_score * gp_coeff + lp_score * lp_coeff + ir_score * ir_coeff

/-- Pointwise zip of four lists, truncating at the shortest, as Python's
`zip` does in the scoring loop of `sort_hits`. -/
def zip4With {α β γ δ ε : Type} (f : α → β → γ → δ → ε) :
    List α → List β → List γ → List δ → List ε
  | a :: as, b :: bs, c :: cs, d :: ds => f a b c d :: zip4With f as bs cs ds
  | _, _, _, _ => []

/-- The scoring phase of `TorResultsView.sort_hits`: build the three parallel
score sequences (IR score per hit, global PagePop score per domain via
`PagePopScore.objects.get_score`, local PagePop score per domain), normalize
each with `normalize_on_max`, and overwrite each hit's `score` with
`heuristic_score` of its zipped normalized triple. `gpScore` and `lpScore`
stand for the external global/local popularity lookups. -/
def scored_hits (hits : List Hit) (gpScore lpScore : String → ℚ)
    (urlparams : UrlParams) : List Hit :=
  let ir_scores := hits.map (fun h => h.score)
  let pp_globl_scores := hits.map (fun h => gpScore h.domain)
  let pp_local_scores := hits.map (fun h => lpScore h.domain)
  zip4With (fun h ir pp pl => { h with score := heuristic_score ir pp pl urlparams })
    hits (normalize_on_max ir_scores) (normalize_on_max pp_globl_scores)
    (normalize_on_max pp_local_scores)

/-- The comparator of `sorted(hits, key=lambda k: k['score'], reverse=True)`:
`a` may precede `b` when `a`'s score is at least `b`'s. Python's `sorted` is
a stable merge sort; with `reverse=True` ties still keep input order. -/
def descLe (a b : Hit) : Bool := decide (b.score ≤ a.score)

/-- Models `TorResultsView.sort_hits`: score every hit, then stably sort the
scored hits by score descending. -/
def sort_hits (hits : List Hit) (gpScore lpScore : String → ℚ)
    (urlparams : UrlParams) : List Hit :=
  List.mergeSort (scored_hits hits gpScore lpScore urlparams) descLe

/-- Models `filter_hits_by_time`: keep the hits whose `updated_on` is at or
after `now - timedelta(days=pastdays)`, i.e. `now - pastdays * 86400`
seconds. -/
def filter_hits_by_time (hits : List Hit) (pastdays : ℤ) (now : ℤ) : List Hit :=
  hits.filter (fun hit => decide (now - pastdays * 86400 ≤ hit.updated_on))

/-- Whether a character counts as strippable whitespace for `int()`. -/
def pyIsSpace (c : Char) : Bool := c = ' ' ∨ c = '\t' ∨ c = '\n' ∨ c = '\r'

/-- Strip leading and trailing whitespace. -/
def pyStrip (cs : List Char) : List Char :=
  ((cs.dropWhile pyIsSpace).reverse.dropWhile pyIsSpace).reverse

/-- Value of a nonempty all-digit character sequence, `none` otherwise. -/
def digitsVal? (cs : List Char) : Option ℕ :=
  match cs with
  | [] => none
  | _ =>
    if cs.all Char.isDigit then
      some (cs.foldl (fun acc c => 10 * acc + digitVal c) 0)
    else none

/-- Models Python's `int(s)` on a string: strip whitespace, allow one
optional sign, then require a nonempty digit sequence; `none` models the
`ValueError` that `filter_hits` catches. -/
def pyInt? (s : String) : Option ℤ :=
  match pyStrip s.toList with
  | '-' :: rest => (digitsVal? rest).map (fun n => -(n : ℤ))
  | '+' :: rest => (digitsVal? rest).map (fun n => (n : ℤ))
  | cs => (digitsVal? cs).map (fun n => (n : ℤ))

/-- Models `TorResultsView.filter_hits`: `int(url_params.get('d'))` — a
missing parameter raises `TypeError`, an unparseable one `ValueError`, both
caught, leaving the `ResultSet` untouched; otherwise the hits are filtered by
time and `total` is recomputed to the filtered count. -/
def filter_hits (dParam : Option String) (now : ℤ) (rs : ResultSet) : ResultSet :=
  match dParam with
  | none => rs
  | some s =>
    match pyInt? s with
    | none => rs
    | some pastdays =>
      let hits := filter_hits_by_time rs.hits pastdays now
      { rs with hits := hits, total := hits.length }

/-- The value `kwargs['page']` holds when `get_context_data` runs: the `get`
method stores `request.GET.get('page', 0)`, which is the *string* value of
the parameter when it is present and the integer `0` only when it is
absent. -/
inductive PageParam where
  | intVal (n : ℤ)
  | strVal (s : String)
deriving DecidableEq

/-- Models `request.GET.get('page', 0)` in `TorResultsView.get`. -/
def getPageKwarg : Option String → PageParam
  | none => PageParam.intVal 0
  | some s => PageParam.strVal s

/-- The fixed page size `TorResultsView.RESULTS_PER_PAGE`. -/
def RESULTS_PER_PAGE : ℕ := 100

/-- The pagination fields of the context dictionary built by
`TorResultsView.get_context_data`. -/
structure PageContext where
  page : ℤ
  max_pages : ℤ
  result_begin : ℤ
  result_end : ℤ
deriving DecidableEq

/-- Models `int(math.ceil(float(length) / RESULTS_PER_PAGE))`. -/
def max_pages_calc (total : ℕ) : ℤ := ⌈(total : ℚ) / (RESULTS_PER_PAGE : ℚ)⌉

/-- Models the pagination part of `TorResultsView.get_context_data`. The
context dictionary literal evaluates `'page': page + 1` first among the
page-dependent entries; when `page` is still a string (any supplied `page`
parameter), `page + 1` raises `TypeError` before any entry is produced. -/
def get_context_pagination (total : ℕ) (page : PageParam) : Except PyError PageContext :=
  match page with
  | PageParam.strVal _ => Except.error PyError.typeError
  | PageParam.intVal p =>
    Except.ok { page := p + 1
                max_pages := max_pages_calc total
                result_begin := (RESULTS_PER_PAGE : ℤ) * p
                result_end := (RESULTS_PER_PAGE : ℤ) * (p + 1) }

/-! Concrete inputs used by witnesses and counterexamples. -/

/-- The Unix epoch in the crawler's timestamp format; parses to `0`. -/
def tsEpoch : String := "1970-01-01T00:00:00"

/-- A single-document bucket content used by the `C9` witness. -/
def mkDoc (dom : String) : EsDoc := ⟨some 1, 2, ⟨dom, tsEpoch, none⟩⟩

/-- Raw response with three site groups and `sum_other_doc_count = 997`. -/
def respC9 : EsResponse := ⟨[⟨[mkDoc "a"]⟩, ⟨[mkDoc "b"]⟩, ⟨[mkDoc "c"]⟩], 997, none⟩

/-- The `ResultSet` that `format_hits` produces on `respC9`. -/
def rsC9 : ResultSet :=
  ⟨1000, [⟨"a", 2, 0, none⟩, ⟨"b", 2, 0, none⟩, ⟨"c", 2, 0, none⟩], none⟩

/-- A hit used by the `C1` witness. -/
def hitW : Hit := ⟨"w", 2, 0, none⟩

/-- Weight parameters summing above `1` (`gp=0.7`, `lp=0.6`). -/
def pW : UrlParams := ⟨7/10, 3/5⟩

/-- Document with authority `0.8` and match score `5`. -/
def docA : EsDoc := ⟨some (4/5), 5, ⟨"siteA", tsEpoch, none⟩⟩

/-- Document with authority `0.3` and match score `9`. -/
def docB : EsDoc := ⟨some (3/10), 9, ⟨"siteB", tsEpoch, none⟩⟩

/-- The two-document bucket of the tie-break example, in one order. -/
def bucketAB : EsBucket := ⟨[docA, docB]⟩

/-- The same bucket in the opposite order. -/
def bucketBA : EsBucket := ⟨[docB, docA]⟩

/-- The formatted representative of the tie-break example:
the authority-`0.8` document with effective score `0.8 × 5 = 4`. -/
def hitA : Hit := ⟨"siteA", 4, 0, none⟩

/-- A document whose `authority` field is present and zero. -/
def cxDocReal : EsDoc := ⟨some 0, 9, ⟨"real", tsEpoch, none⟩⟩

/-- A document whose `authority` field is absent. -/
def cxDocAbsent : EsDoc := ⟨none, 5, ⟨"absent", tsEpoch, none⟩⟩

/-- A string `strptime` rejects. -/
def tsBad : String := "not-a-timestamp"

/-- Raw response with one well-formed group and one group whose timestamp
does not parse. -/
def respC3 : EsResponse :=
  ⟨[⟨[⟨some 1, 2, ⟨"good", tsEpoch, none⟩⟩]⟩, ⟨[⟨some 1, 2, ⟨"bad", tsBad, none⟩⟩]⟩], 0, none⟩

/-- A document whose `anchors` field is an empty list. -/
def c10Doc : EsDoc := ⟨some 1, 3, ⟨"e", tsEpoch, some (PyVal.list [])⟩⟩

/-- Raw response with a single group whose `anchors` field is an empty list. -/
def respC10 : EsResponse := ⟨[⟨[c10Doc]⟩], 0, none⟩

/-- A document whose `anchors` field is a two-element list. -/
def c10DocGood : EsDoc :=
  ⟨some 1, 3, ⟨"g", tsEpoch, some (PyVal.list ["anchor1", "anchor2"])⟩⟩

/-- A hit exactly on the time-filter boundary `now - 7 days` for
`now = 1000000`. -/
def hitBoundary : Hit := ⟨"b", 1, 395200, none⟩

/-- A hit one second older than the time-filter boundary. -/
def hitOlder : Hit := ⟨"o", 1, 395199, none⟩

/-- The `ResultSet` fed to the time-filter witness. -/
def rsC5 : ResultSet := ⟨2, [hitBoundary, hitOlder], none⟩

/-- The `ResultSet` fed to the `filter_hits` counterexample: one hit updated
at `now`. -/
def rsC6 : ResultSet := ⟨1, [⟨"x", 1, 0, none⟩], none⟩

/-! Helper lemmas. -/

/-- Every document ranks no higher than itself. -/
theorem lexLe_refl (a : EsDoc) : lexLe a a := Or.inr ⟨rfl, le_refl _⟩

/-- Transitivity of the `top_hits` sort order. -/
theorem lexLe_trans {a b c : EsDoc} (h1 : lexLe a b) (h2 : lexLe b c) : lexLe a c := by
  rcases h1 with h1 | ⟨h1e, h1m⟩ <;> rcases h2 with h2 | ⟨h2e, h2m⟩
  · exact Or.inl (lt_trans h1 h2)
  · exact Or.inl (h2e ▸ h1)
  · exact Or.inl (h1e ▸ h2)
  · exact Or.inr ⟨h1e.trans h2e, le_trans h1m h2m⟩

/-- If `c` sorts strictly before `b` then `b` ranks no higher than `c`. -/
theorem lexLe_of_betterDoc {b c : EsDoc} (h : betterDoc c b = true) : lexLe b c := by
  unfold betterDoc at h
  rw [decide_eq_true_eq] at h
  rcases h with h | ⟨he, hm⟩
  · exact Or.inl h
  · exact Or.inr ⟨he.symm, le_of_lt hm⟩

/-- If `c` does not sort strictly before `b` then `c` ranks no higher than `b`. -/
theorem lexLe_of_not_betterDoc {b c : EsDoc} (h : betterDoc c b = false) : lexLe c b := by
  unfold betterDoc at h
  rw [decide_eq_false_iff_not] at h
  push_neg at h
  obtain ⟨hle, himp⟩ := h
  rcases lt_or_eq_of_le hle with hlt | heq
  · exact Or.inl hlt
  · exact Or.inr ⟨heq, himp heq⟩

/-- The fold inside `selectTop` returns an element of the processed prefix (or
the seed) that every processed document and the seed rank no higher than. -/
theorem foldl_select_spec (ds : List EsDoc) :
    ∀ b : EsDoc,
      (ds.foldl (fun best c => if betterDoc c best then c else best) b = b
        ∨ ds.foldl (fun best c => if betterDoc c best then c else best) b ∈ ds)
      ∧ lexLe b (ds.foldl (fun best c => if betterDoc c best then c else best) b)
      ∧ ∀ x ∈ ds, lexLe x (ds.foldl (fun best c => if betterDoc c best then c else best) b) := by
  induction ds with
  | nil => intro b; exact ⟨Or.inl rfl, lexLe_refl b, by simp⟩
  | cons c t ih =>
    intro b
    simp only [List.foldl_cons]
    obtain ⟨hmem, hseed, hall⟩ := ih (if betterDoc c b then c else b)
    have hb : lexLe b (if betterDoc c b then c else b) := by
      by_cases hbc : betterDoc c b
      · simpa [hbc] using lexLe_of_betterDoc hbc
      · simp [hbc]; exact lexLe_refl b
    have hc : lexLe c (if betterDoc c b then c else b) := by
      by_cases hbc : betterDoc c b
      · simp [hbc]; exact lexLe_refl c
      · simpa [hbc] using lexLe_of_not_betterDoc (by simpa using hbc)
    refine ⟨?_, lexLe_trans hb hseed, ?_⟩
    · rcases hmem with heq | hmem
      · by_cases hbc : betterDoc c b
        · exact Or.inr (by rw [heq]; simp [hbc])
        · exact Or.inl (by rw [heq]; simp [hbc])
      · exact Or.inr (List.mem_cons_of_mem c hmem)
    · intro x hx
      rcases List.mem_cons.mp hx with hxc | hxt
      · subst hxc; exact lexLe_trans hc hseed
      · exact hall x hxt

/-- The representative returned by `selectTop` belongs to the bucket and is a
maximum of the `top_hits` sort order. -/
theorem selectTop_spec (docs : List EsDoc) (d : EsDoc)
    (h : selectTop docs = some d) : d ∈ docs ∧ ∀ x ∈ docs, lexLe x d := by
  cases docs with
  | nil => simp [selectTop] at h
  | cons d0 ds =>
    unfold selectTop at h
    rw [Option.some.injEq] at h
    obtain ⟨hmem, hseed, hall⟩ := foldl_select_spec ds d0
    subst h
    refine ⟨?_, ?_⟩
    · rcases hmem with he | hm
      · rw [he]; exact List.mem_cons_self d0 ds
      · exact List.mem_cons_of_mem d0 hm
    · intro x hx
      rcases List.mem_cons.mp hx with hx0 | hxt
      · exact hx0 ▸ hseed
      · exact hall x hxt

/-- Index-wise characterization of `zip4With`. -/
theorem zip4With_getElem? {α β γ δ ε : Type} (f : α → β → γ → δ → ε) :
    ∀ (as : List α) (bs : List β) (cs : List γ) (ds : List δ) (i : ℕ)
      (a : α) (b : β) (c : γ) (d : δ),
      as[i]? = some a → bs[i]? = some b → cs[i]? = some c → ds[i]? = some d →
      (zip4With f as bs cs ds)[i]? = some (f a b c d) := by
  intro as
  induction as with
  | nil => intro bs cs ds i a b c d h1; simp at h1
  | cons a0 as ih =>
    intro bs cs ds i a b c d h1 h2 h3 h4
    cases bs with
    | nil => simp at h2
    | cons b0 bs =>
      cases cs with
      | nil => simp at h3
      | cons c0 cs =>
        cases ds with
        | nil => simp at h4
        | cons d0 ds =>
          cases i with
          | zero =>
            simp only [List.getElem?_cons_zero, Option.some.injEq] at h1 h2 h3 h4
            subst h1 h2 h3 h4
            simp [zip4With]
          | succ n =>
            simp only [List.getElem?_cons_succ] at h1 h2 h3 h4
            simpa [zip4With] using ih bs cs ds n a b c d h1 h2 h3 h4

/-- Closed form of `int(math.ceil(float(total) / 100))` on naturals. -/
theorem max_pages_calc_eq (total : ℕ) :
    max_pages_calc total = (((total + 99) / 100 : ℕ) : ℤ) := by
  unfold max_pages_calc RESULTS_PER_PAGE
  have hdm := Nat.div_add_mod (total + 99) 100
  have hml : (total + 99) % 100 < 100 := Nat.mod_lt _ (by norm_num)
  have h1 : total ≤ 100 * ((total + 99) / 100) := by omega
  have h2 : 100 * ((total + 99) / 100) ≤ total + 99 := by omega
  have h1q : (total : ℚ) ≤ 100 * (((total + 99) / 100 : ℕ) : ℚ) := by exact_mod_cast h1
  have h2q : 100 * (((total + 99) / 100 : ℕ) : ℚ) ≤ (total : ℚ) + 99 := by exact_mod_cast h2
  rw [Int.ceil_eq_iff]
  have hcast : ((((total + 99) / 100 : ℕ) : ℤ) : ℚ) = (((total + 99) / 100 : ℕ) : ℚ) := by
    exact_mod_cast rfl
  have hc100 : ((100 : ℕ) : ℚ) = 100 := by norm_num
  rw [hcast, hc100]
  constructor
  · rw [lt_div_iff₀ (by norm_num : (0 : ℚ) < 100)]
    linarith
  · rw [div_le_iff₀ (by norm_num : (0 : ℚ) < 100)]
    linarith

/-- The concrete value `max_pages_calc 250 = 3`. -/
theorem max_pages_calc_250 : max_pages_calc 250 = 3 := by
  rw [max_pages_calc_eq]; decide

/-- Each bucket of a successfully formatted response formats successfully. -/
theorem formatHitsList_ok_mem :
    ∀ (bs : List EsBucket) (hs : List Hit), formatHitsList bs = Except.ok hs →
      ∀ b ∈ bs, ∃ h, formatBucket b = Except.ok h := by
  intro bs
  induction bs with
  | nil => intro hs _ b hb; simp at hb
  | cons b0 bs ih =>
    intro hs hok b hb
    unfold formatHitsList at hok
    cases hfb : formatBucket b0 with
    | error e => rw [hfb] at hok; exact absurd hok (by simp)
    | ok h0 =>
      rw [hfb] at hok
      cases hrest : formatHitsList bs with
      | error e => rw [hrest] at hok; exact absurd hok (by simp)
      | ok hs0 =>
        rcases List.mem_cons.mp hb with hb0 | hbs
        · exact ⟨h0, hb0 ▸ hfb⟩
        · exact ih hs0 hrest b hbs

/-- The epoch timestamp string parses to `0` seconds. -/
theorem parseTimestamp_epoch : parseTimestamp tsEpoch = Except.ok 0 := by
  rfl

/-- The malformed timestamp string raises `ValueError`. -/
theorem parseTimestamp_tsBad : parseTimestamp tsBad = Except.error PyError.valueError := by
  rfl

/-! Claim theorems. -/

/-- C1: the final score of every hit is
`global_weight * normalized_global + local_weight * normalized_local +
ir_weight * normalized_ir` with `ir_weight = 1 - global_weight - local_weight`
unclamped: the combination is a total function of the weights, is computed
for weight pairs summing above 1 (where `ir_weight` is negative, e.g.
`gp=0.7, lp=0.6` gives `ir_weight = -0.3`), and is applied to every hit of
the scored list. -/
theorem C1_heuristic_combination :
    (∀ (ir gp_s lp_s : ℚ) (p : UrlParams),
        heuristic_score ir gp_s lp_s p
          = p.gp * gp_s + p.lp * lp_s + (1 - p.gp - p.lp) * ir)
    ∧ (∀ p : UrlParams, p.gp = 7/10 → p.lp = 3/5 → 1 - p.gp - p.lp = -(3/10))
    ∧ (∀ (hits : List Hit) (gpf lpf : String → ℚ) (p : UrlParams) (i : ℕ)
          (h : Hit) (ir pp pl : ℚ),
        hits[i]? = some h →
        (normalize_on_max (hits.map (fun x => x.score)))[i]? = some ir →
        (normalize_on_max (hits.map (fun x => gpf x.domain)))[i]? = some pp →
        (normalize_on_max (hits.map (fun x => lpf x.domain)))[i]? = some pl →
        (scored_hits hits gpf lpf p)[i]?
          = some { h with score := p.gp * pp + p.lp * pl + (1 - p.gp - p.lp) * ir }) := by
  refine ⟨?_, ?_, ?_⟩
  · intro ir gp_s lp_s p
    unfold heuristic_score
    ring
  · intro p hgp hlp
    rw [hgp, hlp]
    norm_num
  · intro hits gpf lpf p i h ir pp pl h1 h2 h3 h4
    have hz := zip4With_getElem?
      (fun h ir pp pl => { h with score := heuristic_score ir pp pl p })
      hits (normalize_on_max (hits.map (fun x => x.score)))
      (normalize_on_max (hits.map (fun x => gpf x.domain)))
      (normalize_on_max (hits.map (fun x => lpf x.domain)))
      i h ir pp pl h1 h2 h3 h4
    have hsc : heuristic_score ir pp pl p
        = p.gp * pp + p.lp * pl + (1 - p.gp - p.lp) * ir := by
      unfold heuristic_score; ring
    unfold scored_hits
    rw [hz]
    simp only [hsc]

/-- C1 witness: on a concrete one-hit list with `gp=0.7, lp=0.6` all three
normalized signals are `1` and the combined score is applied. -/
theorem C1_heuristic_combination_witness :
    (scored_hits [hitW] (fun _ => 3) (fun _ => 4) pW)[0]?
      = some { hitW with score := pW.gp * 1 + pW.lp * 1 + (1 - pW.gp - pW.lp) * 1 } :=
  C1_heuristic_combination.2.2 [hitW] (fun _ => 3) (fun _ => 4) pW 0 hitW 1 1 1
    (by simp)
    (by norm_num [normalize_on_max, hitW, List.max?])
    (by norm_num [normalize_on_max, hitW, List.max?])
    (by norm_num [normalize_on_max, hitW, List.max?])

/-- C7: for every `total ≥ 0` and `page ≥ 0` (an out-of-range page included,
with no error possible), the pagination context is `display_page = page + 1`,
`max_pages = ⌈total / 100⌉ = (total + 99) / 100` (`0` for `total = 0`),
`result_begin = 100 * page`, `result_end = 100 * (page + 1)`; in particular
`total = 250, page = 2` gives `3, 3, 200, 300`. -/
theorem C7_pagination (total : ℕ) (page : ℤ) (hpage : 0 ≤ page) :
    get_context_pagination total (PageParam.intVal page)
      = Except.ok { page := page + 1
                    max_pages := (((total + 99) / 100 : ℕ) : ℤ)
                    result_begin := 100 * page
                    result_end := 100 * (page + 1) }
    ∧ (total = 0 → max_pages_calc total = 0)
    ∧ get_context_pagination 250 (PageParam.intVal 2)
      = Except.ok { page := 3, max_pages := 3, result_begin := 200, result_end := 300 } := by
  refine ⟨?_, ?_, ?_⟩
  · simp [get_context_pagination, max_pages_calc_eq, RESULTS_PER_PAGE]
  · intro h
    rw [h, max_pages_calc_eq]
    decide
  · simp [get_context_pagination, max_pages_calc_250, RESULTS_PER_PAGE]

/-- C7 witness: the pagination theorem applied at `total = 250, page = 2`. -/
theorem C7_pagination_witness :
    get_context_pagination 250 (PageParam.intVal 2)
      = Except.ok { page := 3, max_pages := 3, result_begin := 200, result_end := 300 } :=
  (C7_pagination 250 2 (by decide)).2.2

/-- C8: a supplied `page` parameter stays a string in `kwargs` (only an
absent parameter falls back to the integer `0`), so `get_context_data`
raises `TypeError` on `page + 1` for any supplied value — the documented
fallback-to-0 behavior only exists for the absent case. -/
theorem C8_page_string_type_error :
    getPageKwarg (some "abc") = PageParam.strVal "abc"
    ∧ get_context_pagination 250 (getPageKwarg (some "abc")) = Except.error PyError.typeError
    ∧ getPageKwarg none = PageParam.intVal 0
    ∧ get_context_pagination 250 (getPageKwarg none)
        = Except.ok { page := 1, max_pages := 3, result_begin := 0, result_end := 100 } := by
  refine ⟨rfl, rfl, rfl, ?_⟩
  simp [get_context_pagination, getPageKwarg, max_pages_calc_250, RESULTS_PER_PAGE]

/-- C9: a successfully aggregated response has
`total = number_of_groups + sum_other_doc_count`. -/
theorem C9_total (resp : EsResponse) (rs : ResultSet)
    (h : format_hits resp = Except.ok rs) :
    rs.total = resp.buckets.length + resp.sum_other_doc_count := by
  unfold format_hits at h
  cases hl : formatHitsList resp.buckets with
  | error e => rw [hl] at h; exact absurd h (by simp)
  | ok hits =>
    rw [hl] at h
    rw [Except.ok.injEq] at h
    rw [← h]

/-- Helper: `format_hits` on the concrete three-group response. -/
theorem format_hits_respC9 : format_hits respC9 = Except.ok rsC9 := by
  have hts := parseTimestamp_epoch
  norm_num [format_hits, formatHitsList, formatBucket, respC9, rsC9, mkDoc,
    selectTop, collapseAnchors, authKey, hts]

/-- C9 witness: three site groups with `sum_other_doc_count = 997` produce
`total = 1000`. -/
theorem C9_total_witness : format_hits respC9 = Except.ok rsC9 ∧ rsC9.total = 1000 :=
  ⟨format_hits_respC9, (C9_total respC9 rsC9 format_hits_respC9).trans rfl⟩

/-- C2 counterexample: the `missing` sentinel `10⁻¹⁰` is *not* below every
present authority value — a document with the real authority `0` loses to a
document with no authority at all, so "absent authority is treated as a
sentinel below any real authority" fails on this input. -/
theorem C2_counterexample :
    cxDocReal.authority = some 0
    ∧ cxDocAbsent.authority = none
    ∧ selectTop [cxDocReal, cxDocAbsent] = some cxDocAbsent
    ∧ selectTop [cxDocReal, cxDocAbsent] ≠ some cxDocReal := by
  have h3 : selectTop [cxDocReal, cxDocAbsent] = some cxDocAbsent := by
    norm_num [selectTop, betterDoc, authKey, sentinel, cxDocReal, cxDocAbsent]
  refine ⟨rfl, rfl, h3, ?_⟩
  rw [h3]
  simp [cxDocReal, cxDocAbsent]

/-- C2 (amended): the representative of a group is a maximum of the declared
`top_hits` order — authority descending with the fixed `missing` sentinel
`10⁻¹⁰` substituted for an absent authority (ordering absent authority below
larger authorities but above authorities at or below the sentinel), then
match score descending — and its assigned match score is the product of the
two sort keys; for the authorities `0.8`/`0.3` with match scores `5`/`9` the
authority-`0.8` document wins with effective score `4`, in either input
order. -/
theorem C2_representative_selection :
    (∀ (docs : List EsDoc) (d : EsDoc), selectTop docs = some d →
        d ∈ docs ∧ ∀ x ∈ docs, lexLe x d)
    ∧ (∀ (b : EsBucket) (d : EsDoc) (hit : Hit), selectTop b.docs = some d →
        formatBucket b = Except.ok hit → hit.score = d.matchScore * authKey d)
    ∧ (formatBucket bucketAB = Except.ok hitA
        ∧ formatBucket bucketBA = Except.ok hitA
        ∧ hitA.score = (4/5) * 5
        ∧ hitA.domain = "siteA") := by
  refine ⟨selectTop_spec, ?_, ?_, ?_, by norm_num [hitA], rfl⟩
  · intro b d hit hsel hfb
    unfold formatBucket at hfb
    simp only [hsel] at hfb
    cases hp : parseTimestamp d.source.updated_on with
    | error e => simp [hp] at hfb
    | ok ts =>
      cases hc : collapseAnchors d.source.anchors with
      | error e => simp [hp, hc] at hfb
      | ok anch =>
        simp only [hp, hc, Except.ok.injEq] at hfb
        rw [← hfb]
  · norm_num [formatBucket, selectTop, betterDoc, authKey, bucketAB, docA, docB,
      hitA, collapseAnchors, parseTimestamp_epoch]
  · norm_num [formatBucket, selectTop, betterDoc, authKey, bucketBA, docA, docB,
      hitA, collapseAnchors, parseTimestamp_epoch]

/-- C2 witness: the amended theorem applied to the concrete `0.8`/`0.3`
bucket — the chosen document is in the bucket, dominates the other one, and
its score is the product of its two sort keys. -/
theorem C2_representative_selection_witness :
    docA ∈ bucketAB.docs ∧ lexLe docB docA
    ∧ hitA.score = docA.matchScore * authKey docA := by
  have hsel : selectTop bucketAB.docs = some docA := by
    norm_num [selectTop, betterDoc, authKey, bucketAB, docA, docB]
  exact ⟨(C2_representative_selection.1 bucketAB.docs docA hsel).1,
    (C2_representative_selection.1 bucketAB.docs docA hsel).2 docB (by simp [bucketAB]),
    C2_representative_selection.2.1 bucketAB docA hitA hsel
      C2_representative_selection.2.2.1⟩

/-- C3 counterexample: a response with one well-formed group and one group
whose timestamp does not parse makes the whole aggregation raise
`ValueError` — no `ResultSet` with the remaining group is produced, contrary
to the claim that only the bad group is dropped. -/
theorem C3_counterexample :
    respC3.buckets.length = 2
    ∧ formatBucket ⟨[⟨some 1, 2, ⟨"good", tsEpoch, none⟩⟩]⟩ = Except.ok ⟨"good", 2, 0, none⟩
    ∧ parseTimestamp tsBad = Except.error PyError.valueError
    ∧ format_hits respC3 = Except.error PyError.valueError := by
  refine ⟨rfl, ?_, rfl, ?_⟩
  · norm_num [formatBucket, selectTop, authKey, collapseAnchors, parseTimestamp_epoch]
  · norm_num [format_hits, formatHitsList, formatBucket, respC3, selectTop, authKey,
      collapseAnchors, parseTimestamp_epoch, parseTimestamp_tsBad]

/-- C3 (amended): if any group's representative has an unparseable timestamp,
`format_hits` fails as a whole — it never returns a `ResultSet`, so the
remaining groups do not appear either; the uncaught `ValueError` aborts the
query instead of dropping the single group. -/
theorem C3_group_parse_failure_fatal (resp : EsResponse) (b : EsBucket) (d : EsDoc)
    (hb : b ∈ resp.buckets) (hsel : selectTop b.docs = some d)
    (hfail : ∀ n : ℤ, parseTimestamp d.source.updated_on ≠ Except.ok n) :
    ∀ rs : ResultSet, format_hits resp ≠ Except.ok rs := by
  intro rs hok
  unfold format_hits at hok
  cases hl : formatHitsList resp.buckets with
  | error e => simp [hl] at hok
  | ok hs =>
    obtain ⟨h, hfb⟩ := formatHitsList_ok_mem resp.buckets hs hl b hb
    unfold formatBucket at hfb
    simp only [hsel] at hfb
    cases hp : parseTimestamp d.source.updated_on with
    | error e => simp [hp] at hfb
    | ok n => exact hfail n hp

/-- C3 witness: the amended theorem applied to the concrete mixed response. -/
theorem C3_group_parse_failure_fatal_witness :
    format_hits respC3 ≠ Except.ok ⟨2, [⟨"good", 2, 0, none⟩], none⟩ :=
  C3_group_parse_failure_fatal respC3 ⟨[⟨some 1, 2, ⟨"bad", tsBad, none⟩⟩]⟩
    ⟨some 1, 2, ⟨"bad", tsBad, none⟩⟩
    (by simp [respC3]) rfl
    (fun n h => absurd h (by rw [show parseTimestamp tsBad = Except.error PyError.valueError from rfl]; simp))
    ⟨2, [⟨"good", 2, 0, none⟩], none⟩

/-- C10 counterexample: a group whose `anchors` field is an empty list makes
`anchors[0]` raise `IndexError`, which the `except (KeyError, TypeError)`
clause does not catch — the whole aggregation errors instead of tolerating
the degenerate list. -/
theorem C10_counterexample :
    c10Doc.source.anchors = some (PyVal.list [])
    ∧ format_hits respC10 = Except.error PyError.indexError := by
  refine ⟨rfl, ?_⟩
  norm_num [format_hits, formatHitsList, formatBucket, respC10, c10Doc, selectTop,
    authKey, collapseAnchors, pySubscript0, parseTimestamp_epoch]

/-- C10 (amended): a nonempty anchors list is collapsed to its first element;
an absent field is tolerated and stays absent; a non-subscriptable value
(`None`, raising `TypeError`) is tolerated but kept unchanged rather than
omitted; an empty list raises an uncaught `IndexError` that aborts the
aggregation; and on success the output hit's anchors field is exactly the
collapsed value. -/
theorem C10_anchors_collapse :
    (∀ (x : String) (xs : List String),
        collapseAnchors (some (PyVal.list (x :: xs))) = Except.ok (some (PyVal.str x)))
    ∧ collapseAnchors none = Except.ok none
    ∧ collapseAnchors (some PyVal.pyNone) = Except.ok (some PyVal.pyNone)
    ∧ collapseAnchors (some (PyVal.list [])) = Except.error PyError.indexError
    ∧ (∀ (b : EsBucket) (d : EsDoc) (hit : Hit), selectTop b.docs = some d →
        formatBucket b = Except.ok hit →
        collapseAnchors d.source.anchors = Except.ok hit.anchors) := by
  refine ⟨fun x xs => rfl, rfl, rfl, rfl, ?_⟩
  intro b d hit hsel hfb
  unfold formatBucket at hfb
  simp only [hsel] at hfb
  cases hp : parseTimestamp d.source.updated_on with
  | error e => simp [hp] at hfb
  | ok ts =>
    cases hc : collapseAnchors d.source.anchors with
    | error e => simp [hp, hc] at hfb
    | ok anch =>
      simp only [hp, hc, Except.ok.injEq] at hfb
      rw [← hfb]

/-- C10 witness: the amended theorem applied to a concrete group whose
anchors list has two elements — the output hit carries the first element. -/
theorem C10_anchors_collapse_witness :
    collapseAnchors c10DocGood.source.anchors = Except.ok (some (PyVal.str "anchor1")) :=
  C10_anchors_collapse.2.2.2.2 ⟨[c10DocGood]⟩ c10DocGood
    ⟨"g", 3, 0, some (PyVal.str "anchor1")⟩ rfl
    (by norm_num [formatBucket, selectTop, authKey, c10DocGood, collapseAnchors,
      pySubscript0, parseTimestamp_epoch])

/-- C5: with a parseable non-negative `d` parameter, `filter_hits` keeps
exactly the hits with `updated_on ≥ now - d` days (a hit exactly on the
boundary is retained, one second older is dropped) and recomputes `total` to
the retained count. -/
theorem C5_time_filter (s : String) (d now : ℤ) (rs : ResultSet)
    (hparse : pyInt? s = some d) (hd : 0 ≤ d) :
    (filter_hits (some s) now rs).hits
        = rs.hits.filter (fun h => decide (now - d * 86400 ≤ h.updated_on))
    ∧ (filter_hits (some s) now rs).total
        = (rs.hits.filter (fun h => decide (now - d * 86400 ≤ h.updated_on))).length
    ∧ (∀ h : Hit, h ∈ rs.hits → h.updated_on = now - d * 86400 →
        h ∈ (filter_hits (some s) now rs).hits)
    ∧ (∀ h : Hit, h.updated_on = now - d * 86400 - 1 →
        h ∉ (filter_hits (some s) now rs).hits) := by
  simp only [filter_hits, hparse]
  refine ⟨rfl, rfl, ?_, ?_⟩
  · intro h hmem hb
    simp only [filter_hits_by_time, List.mem_filter, decide_eq_true_eq]
    exact ⟨hmem, by rw [hb]⟩
  · intro h hb hmem
    simp only [filter_hits_by_time, List.mem_filter, decide_eq_true_eq] at hmem
    rw [hb] at hmem
    omega

/-- C5 witness: with `d = 7` and `now = 1000000`, the boundary hit
(`updated_on = 395200 = now - 7·86400`) is retained and the hit one second
older is dropped. -/
theorem C5_time_filter_witness :
    hitBoundary ∈ (filter_hits (some "7") 1000000 rsC5).hits
    ∧ hitOlder ∉ (filter_hits (some "7") 1000000 rsC5).hits :=
  ⟨(C5_time_filter "7" 7 1000000 rsC5 (by decide) (by decide)).2.2.1 hitBoundary
      (by simp [rsC5]) (by decide),
   (C5_time_filter "7" 7 1000000 rsC5 (by decide) (by decide)).2.2.2 hitOlder (by decide)⟩

/-- C6 counterexample: `d = "-1"` is not a valid non-negative integer, yet
`int('-1')` succeeds and the filter runs with a threshold one day in the
future, emptying the hit list and changing `total` — the `ResultSet` is not
returned unchanged. -/
theorem C6_counterexample :
    pyInt? "-1" = some (-1)
    ∧ filter_hits (some "-1") 0 rsC6 ≠ rsC6
    ∧ (filter_hits (some "-1") 0 rsC6).hits = []
    ∧ (filter_hits (some "-1") 0 rsC6).total = 0 := by
  have hp : pyInt? "-1" = some (-1) := by decide
  have hval : filter_hits (some "-1") 0 rsC6 = ⟨0, [], none⟩ := by
    norm_num [filter_hits, hp, filter_hits_by_time, rsC6]
  refine ⟨hp, ?_, by rw [hval], by rw [hval]⟩
  rw [hval]
  simp [rsC6]

/-- C6 (amended): the `ResultSet` is returned unchanged exactly when the
max-age parameter is absent or not parseable as an integer (Python's `int()`
accepts negative integers, which do alter the `ResultSet`). -/
theorem C6_filter_unchanged_unparseable (dParam : Option String) (now : ℤ)
    (rs : ResultSet) (h : ∀ s, dParam = some s → pyInt? s = none) :
    filter_hits dParam now rs = rs := by
  cases dParam with
  | none => rfl
  | some s => simp only [filter_hits, h s rfl]

/-- C6 witness: the unparseable value `d = "all"` leaves a concrete
`ResultSet` unchanged. -/
theorem C6_filter_unchanged_unparseable_witness :
    filter_hits (some "all") 0 rsC6 = rsC6 :=
  C6_filter_unchanged_unparseable (some "all") 0 rsC6
    (by intro s hs; rw [Option.some.injEq] at hs; subst hs; decide)

/-- The descending comparator is transitive. -/
theorem descLe_trans (a b c : Hit) (h1 : descLe a b = true) (h2 : descLe b c = true) :
    descLe a c = true := by
  unfold descLe at h1 h2 ⊢
  rw [decide_eq_true_eq] at h1 h2 ⊢
  exact le_trans h2 h1

/-- The descending comparator is total. -/
theorem descLe_total (a b : Hit) : (descLe a b || descLe b a) = true := by
  unfold descLe
  rw [Bool.or_eq_true, decide_eq_true_eq, decide_eq_true_eq]
  exact le_total b.score a.score

/-- C4: after the ranker runs, the hit list is a permutation of the scored
hits, sorted descending by final score, and the sort is stable: for every
score value, the subsequence of hits carrying that score is unchanged, so
hits with equal final scores keep their prior relative order. -/
theorem C4_ranker_sort (hits : List Hit) (gpf lpf : String → ℚ) (p : UrlParams) :
    (sort_hits hits gpf lpf p).Perm (scored_hits hits gpf lpf p)
    ∧ (sort_hits hits gpf lpf p).Pairwise (fun a b => b.score ≤ a.score)
    ∧ ∀ s : ℚ,
        (sort_hits hits gpf lpf p).filter (fun h => decide (h.score = s))
          = (scored_hits hits gpf lpf p).filter (fun h => decide (h.score = s)) := by
  refine ⟨List.mergeSort_perm (scored_hits hits gpf lpf p) descLe, ?_, ?_⟩
  · have hp := @List.sorted_mergeSort Hit descLe descLe_trans descLe_total
      (scored_hits hits gpf lpf p)
    unfold sort_hits
    refine hp.imp ?_
    intro a b hab
    unfold descLe at hab
    exact of_decide_eq_true hab
  · intro s
    set pr := fun h : Hit => decide (h.score = s) with hpr
    have hpair : ((scored_hits hits gpf lpf p).filter pr).Pairwise
        (fun a b => descLe a b = true) := by
      apply List.pairwise_of_forall_mem_list
      intro a ha b hb
      have ha' := (List.mem_filter.mp ha).2
      have hb' := (List.mem_filter.mp hb).2
      simp only [hpr, decide_eq_true_eq] at ha' hb'
      unfold descLe
      rw [decide_eq_true_eq, ha', hb']
    have hsub := List.sublist_mergeSort descLe_trans descLe_total hpair
      (List.filter_sublist (scored_hits hits gpf lpf p))
    have hsub2 : List.Sublist ((scored_hits hits gpf lpf p).filter pr)
        ((List.mergeSort (scored_hits hits gpf lpf p) descLe).filter pr) := by
      have h2 := List.Sublist.filter pr hsub
      simpa [List.filter_filter, Bool.and_self] using h2
    have hlen : (((List.mergeSort (scored_hits hits gpf lpf p) descLe)).filter pr).length
        = ((scored_hits hits gpf lpf p).filter pr).length :=
      (List.Perm.filter pr (List.mergeSort_perm (scored_hits hits gpf lpf p) descLe)).length_eq
    unfold sort_hits
    exact (hsub2.eq_of_length hlen.symm).symm

end Ahmia
